import Mathlib

/-!
# LatinIME `UnigramDictionary`: trie format constants and suggestion output

A shallow embedding of `native/src/unigram_dictionary.h`.  The header declares the
bit layout of the two flags bytes of the dictionary format (the group flags byte and
the attribute flags byte), the error tolerances of the search and the bits of the
`flags` argument of `getSuggestions`.  The `static const int` members are embedded as
natural numbers (all of them are non-negative and fit a byte); a flags byte is a
natural number below 256, and the C operators `&`, `|`, `^`, `>>` are the operations
`&&&`, `|||`, `^^^`, `>>>` on natural numbers.  The `int` argument `flags` of
`getSuggestions` is read through its bit pattern, a natural number; what is proved
about it holds for every natural number.

The header declares the operations of the class without their bodies.  Where a
property needs one (the packing and reading of a flags byte, the address width
tables, the collector behind `getSuggestions`), the definition is written from the
specification of the format and says so.
-/

namespace UnigramDictionary

/-! ## Constants of the header -/

-- Mask and flags for children address type selection.
def MASK_GROUP_ADDRESS_TYPE : Nat := 0xC0
def FLAG_GROUP_ADDRESS_TYPE_NOADDRESS : Nat := 0x00
def FLAG_GROUP_ADDRESS_TYPE_ONEBYTE : Nat := 0x40
def FLAG_GROUP_ADDRESS_TYPE_TWOBYTES : Nat := 0x80
def FLAG_GROUP_ADDRESS_TYPE_THREEBYTES : Nat := 0xC0

-- Flag for single/multiple char group
def FLAG_HAS_MULTIPLE_CHARS : Nat := 0x20

-- Flag for terminal groups
def FLAG_IS_TERMINAL : Nat := 0x10

-- Flag for shortcut targets presence
def FLAG_HAS_SHORTCUT_TARGETS : Nat := 0x08
-- Flag for bigram presence
def FLAG_HAS_BIGRAMS : Nat := 0x04
-- Flag for shortcut-only words.
def FLAG_IS_SHORTCUT_ONLY : Nat := 0x02

-- Attribute (bigram/shortcut) related flags:
-- Flag for presence of more attributes
def FLAG_ATTRIBUTE_HAS_NEXT : Nat := 0x80
-- Flag for sign of offset. If this flag is set, the offset value must be negated.
def FLAG_ATTRIBUTE_OFFSET_NEGATIVE : Nat := 0x40

-- Mask for attribute frequency, stored on 4 bits inside the flags byte.
def MASK_ATTRIBUTE_FREQUENCY : Nat := 0x0F

-- Mask and flags for attribute address type selection.
def MASK_ATTRIBUTE_ADDRESS_TYPE : Nat := 0x30
def FLAG_ATTRIBUTE_ADDRESS_TYPE_ONEBYTE : Nat := 0x10
def FLAG_ATTRIBUTE_ADDRESS_TYPE_TWOBYTES : Nat := 0x20
def FLAG_ATTRIBUTE_ADDRESS_TYPE_THREEBYTES : Nat := 0x30

-- Error tolerances
def DEFAULT_MAX_ERRORS : Nat := 2
def MAX_ERRORS_FOR_TWO_WORDS : Nat := 1

-- Flags for special processing (the anonymous enum of the class)
def REQUIRES_GERMAN_UMLAUT_PROCESSING : Nat := 0x1
def USE_FULL_EDIT_DISTANCE : Nat := 0x2

/-! ## Address widths -/

/-- Modelled from the spec: the children-address width table of the trie format
(bits 7-6 of the group flags byte: 00 none, 01 one byte, 10 two bytes, 11 three
bytes), written as the comparison of the masked flags byte with the header's
`FLAG_GROUP_ADDRESS_TYPE_*` constants.  The decoder that applies the table is not
part of the header. -/
def groupAddressWidth (flags : Nat) : Nat :=
  if flags &&& MASK_GROUP_ADDRESS_TYPE = FLAG_GROUP_ADDRESS_TYPE_ONEBYTE then 1
  else if flags &&& MASK_GROUP_ADDRESS_TYPE = FLAG_GROUP_ADDRESS_TYPE_TWOBYTES then 2
  else if flags &&& MASK_GROUP_ADDRESS_TYPE = FLAG_GROUP_ADDRESS_TYPE_THREEBYTES then 3
  else 0

/-- Modelled from the spec: the attribute address width table (bits 5-4 of the
attribute flags byte: 01/10/11 = 1/2/3 bytes), written as the comparison of the masked
flags byte with the header's `FLAG_ATTRIBUTE_ADDRESS_TYPE_*` constants.  The reserved
code 00 matches no constant and selects no offset bytes, so it yields 0.  The decoder
that applies the table is not part of the header. -/
def attributeAddressWidth (flags : Nat) : Nat :=
  if flags &&& MASK_ATTRIBUTE_ADDRESS_TYPE = FLAG_ATTRIBUTE_ADDRESS_TYPE_ONEBYTE then 1
  else if flags &&& MASK_ATTRIBUTE_ADDRESS_TYPE = FLAG_ATTRIBUTE_ADDRESS_TYPE_TWOBYTES then 2
  else if flags &&& MASK_ATTRIBUTE_ADDRESS_TYPE = FLAG_ATTRIBUTE_ADDRESS_TYPE_THREEBYTES then 3
  else 0

/-! ## Flags bytes as records -/

/-- The four children-address types a group flags byte can name. -/
inductive GroupAddressType where
  | noAddress
  | oneByte
  | twoBytes
  | threeBytes
deriving DecidableEq

/-- The three address types an attribute flags byte can name (code 00 is reserved). -/
inductive AttributeAddressType where
  | oneByte
  | twoBytes
  | threeBytes
deriving DecidableEq

/-- The fields the format packs into a group flags byte. -/
structure GroupFlags where
  addressType : GroupAddressType
  hasMultipleChars : Bool
  isTerminal : Bool
  hasShortcutTargets : Bool
  hasBigrams : Bool
  isShortcutOnly : Bool
deriving DecidableEq

/-- The fields the format packs into an attribute flags byte. -/
structure AttributeFlags where
  hasNext : Bool
  offsetNegative : Bool
  addressType : AttributeAddressType
  frequency : Nat
deriving DecidableEq

/-- The header constant that names a children-address type. -/
def GroupAddressType.flag : GroupAddressType → Nat
  | .noAddress => FLAG_GROUP_ADDRESS_TYPE_NOADDRESS
  | .oneByte => FLAG_GROUP_ADDRESS_TYPE_ONEBYTE
  | .twoBytes => FLAG_GROUP_ADDRESS_TYPE_TWOBYTES
  | .threeBytes => FLAG_GROUP_ADDRESS_TYPE_THREEBYTES

/-- The header constant that names an attribute address type. -/
def AttributeAddressType.flag : AttributeAddressType → Nat
  | .oneByte => FLAG_ATTRIBUTE_ADDRESS_TYPE_ONEBYTE
  | .twoBytes => FLAG_ATTRIBUTE_ADDRESS_TYPE_TWOBYTES
  | .threeBytes => FLAG_ATTRIBUTE_ADDRESS_TYPE_THREEBYTES

/-- Modelled from the spec: the dictionary compiler's packing of a group flags byte,
which is not part of the header: the `FLAG_GROUP_ADDRESS_TYPE_*` constant of the
address type OR-ed with the `FLAG_*` constant of every boolean that is set (bits 7-6
address type, bit 5 multi-character run, bit 4 terminal, bit 3 shortcut targets,
bit 2 bigrams, bit 1 shortcut-only). -/
def encodeGroupFlags (g : GroupFlags) : Nat :=
  g.addressType.flag |||
    (if g.hasMultipleChars then FLAG_HAS_MULTIPLE_CHARS else 0) |||
    (if g.isTerminal then FLAG_IS_TERMINAL else 0) |||
    (if g.hasShortcutTargets then FLAG_HAS_SHORTCUT_TARGETS else 0) |||
    (if g.hasBigrams then FLAG_HAS_BIGRAMS else 0) |||
    (if g.isShortcutOnly then FLAG_IS_SHORTCUT_ONLY else 0)

/-- Modelled from the spec: the codec's reading of a group flags byte, which is not
part of the header: the address type is the `FLAG_GROUP_ADDRESS_TYPE_*` constant
equal to `flags & MASK_GROUP_ADDRESS_TYPE`, and each boolean is the test
`(flags & FLAG_*) != 0`. -/
def decodeGroupFlags (flags : Nat) : GroupFlags :=
  { addressType :=
      if flags &&& MASK_GROUP_ADDRESS_TYPE = FLAG_GROUP_ADDRESS_TYPE_ONEBYTE then .oneByte
      else if flags &&& MASK_GROUP_ADDRESS_TYPE = FLAG_GROUP_ADDRESS_TYPE_TWOBYTES then .twoBytes
      else if flags &&& MASK_GROUP_ADDRESS_TYPE = FLAG_GROUP_ADDRESS_TYPE_THREEBYTES then
        .threeBytes
      else .noAddress
    hasMultipleChars := flags &&& FLAG_HAS_MULTIPLE_CHARS != 0
    isTerminal := flags &&& FLAG_IS_TERMINAL != 0
    hasShortcutTargets := flags &&& FLAG_HAS_SHORTCUT_TARGETS != 0
    hasBigrams := flags &&& FLAG_HAS_BIGRAMS != 0
    isShortcutOnly := flags &&& FLAG_IS_SHORTCUT_ONLY != 0 }

/-- Modelled from the spec: the dictionary compiler's packing of an attribute flags
byte, which is not part of the header: bit 7 has-next, bit 6 offset-sign-negative,
bits 5-4 the `FLAG_ATTRIBUTE_ADDRESS_TYPE_*` constant, bits 3-0 the frequency. -/
def encodeAttributeFlags (e : AttributeFlags) : Nat :=
  (if e.hasNext then FLAG_ATTRIBUTE_HAS_NEXT else 0) |||
    (if e.offsetNegative then FLAG_ATTRIBUTE_OFFSET_NEGATIVE else 0) |||
    e.addressType.flag |||
    e.frequency

/-- Modelled from the spec: the codec's reading of an attribute flags byte, which is
not part of the header: each field is read through its mask; the reserved
address-type code 00 matches no `FLAG_ATTRIBUTE_ADDRESS_TYPE_*` constant and gives no
entry. -/
def decodeAttributeFlags (flags : Nat) : Option AttributeFlags :=
  let addressType : Option AttributeAddressType :=
    if flags &&& MASK_ATTRIBUTE_ADDRESS_TYPE = FLAG_ATTRIBUTE_ADDRESS_TYPE_ONEBYTE then
      some .oneByte
    else if flags &&& MASK_ATTRIBUTE_ADDRESS_TYPE = FLAG_ATTRIBUTE_ADDRESS_TYPE_TWOBYTES then
      some .twoBytes
    else if flags &&& MASK_ATTRIBUTE_ADDRESS_TYPE = FLAG_ATTRIBUTE_ADDRESS_TYPE_THREEBYTES then
      some .threeBytes
    else none
  addressType.map fun t =>
    { hasNext := flags &&& FLAG_ATTRIBUTE_HAS_NEXT != 0
      offsetNegative := flags &&& FLAG_ATTRIBUTE_OFFSET_NEGATIVE != 0
      addressType := t
      frequency := flags &&& MASK_ATTRIBUTE_FREQUENCY }

/-! ## The suggestion collector and `getSuggestions` -/

/-- A suggestion candidate: a word (its character codes) and its score. -/
structure Candidate where
  word : List Nat
  score : Int

/-- The two buckets of the collector. -/
inductive Bucket where
  | singleWord
  | twoWords

/-- The retained candidates of the collector, one list per bucket, each kept in
descending order of score. -/
structure Collector where
  singleWord : List Candidate
  twoWords : List Candidate

/-- Places a candidate in a list kept in descending order of score, after the
retained candidates whose score is at least its own. -/
def insertByScore (c : Candidate) : List Candidate → List Candidate
  | [] => [c]
  | d :: ds => if d.score < c.score then c :: d :: ds else d :: insertByScore c ds

/-- Modelled from the spec: the push of the Suggestion Collector, which the header
only includes (`words_priority_queue.h`): the collector accepts a (word, score)
pair and retains only the top K of its bucket; pushing beyond capacity evicts the
lowest-scoring retained candidate. -/
def Collector.push (capacity : Nat) (q : Collector) (bucket : Bucket) (c : Candidate) :
    Collector :=
  match bucket with
  | .singleWord => { q with singleWord := (insertByScore c q.singleWord).take capacity }
  | .twoWords => { q with twoWords := (insertByScore c q.twoWords).take capacity }

/-- Modelled from the spec: the final sorted drain of the Suggestion Collector, which
the header only includes: the retained candidates of both buckets, by descending
score. -/
def Collector.drain (q : Collector) : List Candidate :=
  q.twoWords.foldr insertByScore q.singleWord

/-- The arguments of one `getSuggestions` call that describe the typed input. -/
structure SuggestionRequest where
  xcoordinates : List Int
  ycoordinates : List Int
  codes : List Int
  codesSize : Int
  flags : Int

/-- What `getSuggestions` hands back: the returned count and the written prefixes of
`outWords` (one word per stride) and `frequencies`. -/
structure Suggestions where
  count : Nat
  outWords : List (List Nat)
  frequencies : List Int

/-- Modelled from the spec: `getSuggestions`, of which the header holds only the
declaration, not the body.  The search over the trie
produces (word, score) pairs and push calls, here the list `search dictRoot request`
of pushes in the order they are made; the candidates go to the collector, and the
call writes up to `maxWords` words and their parallel frequencies, sorted by
descending score, and returns how many it wrote.  The search itself (trie walk,
proximity and edit policy, digraphs, word splitting) is a parameter. -/
def getSuggestions (maxWords : Nat)
    (search : List Nat → SuggestionRequest → List (Bucket × Candidate))
    (dictRoot : List Nat) (request : SuggestionRequest) : Suggestions :=
  let collector := (search dictRoot request).foldl
    (fun (q : Collector) (p : Bucket × Candidate) => q.push maxWords p.1 p.2) (Collector.mk [] [])
  let out := collector.drain.take maxWords
  { count := out.length
    outWords := out.map fun c => c.word
    frequencies := out.map fun c => c.score }

/-- Descending order of score. -/
def SortedByScore (l : List Candidate) : Prop :=
  l.Pairwise fun a b => b.score ≤ a.score

/-! ## Shared lemmas on flags bytes -/

/-- The group address-type mask keeps bits 7-6 of a byte and nothing else. -/
theorem and_mask_group_eq (b : Nat) (hb : b < 256) :
    b &&& MASK_GROUP_ADDRESS_TYPE = 64 * (b / 64) := by
  revert b
  set_option maxRecDepth 100000 in decide

/-- The children-address width of a byte is the number written in its bits 7-6. -/
theorem groupAddressWidth_eq_div (b : Nat) (hb : b < 256) :
    groupAddressWidth b = b / 64 := by
  revert b
  set_option maxRecDepth 100000 in decide

/-- The attribute address-type mask keeps bits 5-4 of a byte and nothing else. -/
theorem and_mask_attribute_eq (b : Nat) (hb : b < 256) :
    b &&& MASK_ATTRIBUTE_ADDRESS_TYPE = 16 * (b / 16 % 4) := by
  revert b
  set_option maxRecDepth 100000 in decide

/-- The attribute address width of a byte is the number written in its bits 5-4. -/
theorem attributeAddressWidth_eq_div (b : Nat) (hb : b < 256) :
    attributeAddressWidth b = b / 16 % 4 := by
  revert b
  set_option maxRecDepth 100000 in decide

/-! ## Claims on the group flags byte -/

/-- C1: for every group flags byte `b`, `b AND MASK_GROUP_ADDRESS_TYPE` is one of the
four pairwise distinct `FLAG_GROUP_ADDRESS_TYPE_*` constants, and it is NOADDRESS,
ONEBYTE, TWOBYTES, THREEBYTES exactly when bits 7-6 of `b` (that is `b / 64`) are
0, 1, 2, 3; the children-address width is `b / 64`, at most 3, and every byte `c`
with the same bits 7-6 (whatever its bits 5-0) has the same masked value and the
same width. -/
theorem group_address_type_of_bits (b : Nat) (hb : b < 256) :
    b &&& MASK_GROUP_ADDRESS_TYPE ∈
        [FLAG_GROUP_ADDRESS_TYPE_NOADDRESS, FLAG_GROUP_ADDRESS_TYPE_ONEBYTE,
         FLAG_GROUP_ADDRESS_TYPE_TWOBYTES, FLAG_GROUP_ADDRESS_TYPE_THREEBYTES] ∧
    [FLAG_GROUP_ADDRESS_TYPE_NOADDRESS, FLAG_GROUP_ADDRESS_TYPE_ONEBYTE,
     FLAG_GROUP_ADDRESS_TYPE_TWOBYTES, FLAG_GROUP_ADDRESS_TYPE_THREEBYTES].Nodup ∧
    (b &&& MASK_GROUP_ADDRESS_TYPE = FLAG_GROUP_ADDRESS_TYPE_NOADDRESS ↔ b / 64 = 0) ∧
    (b &&& MASK_GROUP_ADDRESS_TYPE = FLAG_GROUP_ADDRESS_TYPE_ONEBYTE ↔ b / 64 = 1) ∧
    (b &&& MASK_GROUP_ADDRESS_TYPE = FLAG_GROUP_ADDRESS_TYPE_TWOBYTES ↔ b / 64 = 2) ∧
    (b &&& MASK_GROUP_ADDRESS_TYPE = FLAG_GROUP_ADDRESS_TYPE_THREEBYTES ↔ b / 64 = 3) ∧
    groupAddressWidth b = b / 64 ∧ groupAddressWidth b ≤ 3 ∧
    (∀ c, c < 256 → c / 64 = b / 64 →
      c &&& MASK_GROUP_ADDRESS_TYPE = b &&& MASK_GROUP_ADDRESS_TYPE ∧
      groupAddressWidth c = groupAddressWidth b) := by
  have hm := and_mask_group_eq b hb
  have hw := groupAddressWidth_eq_div b hb
  have hq : b / 64 < 4 := by omega
  refine ⟨?_, by decide, ?_, ?_, ?_, ?_, hw, by omega, ?_⟩
  · rw [hm]
    simp only [FLAG_GROUP_ADDRESS_TYPE_NOADDRESS, FLAG_GROUP_ADDRESS_TYPE_ONEBYTE,
      FLAG_GROUP_ADDRESS_TYPE_TWOBYTES, FLAG_GROUP_ADDRESS_TYPE_THREEBYTES,
      List.mem_cons, List.mem_singleton]
    have : b / 64 = 0 ∨ b / 64 = 1 ∨ b / 64 = 2 ∨ b / 64 = 3 := by omega
    omega
  · rw [hm]; simp only [FLAG_GROUP_ADDRESS_TYPE_NOADDRESS]; omega
  · rw [hm]; simp only [FLAG_GROUP_ADDRESS_TYPE_ONEBYTE]; omega
  · rw [hm]; simp only [FLAG_GROUP_ADDRESS_TYPE_TWOBYTES]; omega
  · rw [hm]; simp only [FLAG_GROUP_ADDRESS_TYPE_THREEBYTES]; omega
  · intro c hc hcb
    rw [and_mask_group_eq c hc, groupAddressWidth_eq_div c hc, hm, hw, hcb]
    exact ⟨rfl, rfl⟩

/-- C1 at the byte `0x9F` (bits 7-6 = 10): the two-byte address type. -/
theorem group_address_type_of_bits_witness :
    (0x9F : Nat) < 256 ∧ 0x9F &&& MASK_GROUP_ADDRESS_TYPE = FLAG_GROUP_ADDRESS_TYPE_TWOBYTES ∧
      groupAddressWidth 0x9F = 2 :=
  ⟨by decide,
   (group_address_type_of_bits 0x9F (by decide)).2.2.2.2.1.mpr (by decide),
   (group_address_type_of_bits 0x9F (by decide)).2.2.2.2.2.2.1⟩

/-- C2: the five group flags are the single bits 5, 4, 3, 2, 1; they are pairwise
disjoint and disjoint from `MASK_GROUP_ADDRESS_TYPE`; and for every byte `b`, setting
(`b | f`) or clearing (`b & ~f`, the complement taken in a byte) one flag `f` leaves
what every other flag and the address-type mask read from the byte unchanged, while
the flag itself reads as set, respectively cleared. -/
theorem group_flags_independent (b : Nat) (hb : b < 256) :
    FLAG_HAS_MULTIPLE_CHARS = 2 ^ 5 ∧ FLAG_IS_TERMINAL = 2 ^ 4 ∧
    FLAG_HAS_SHORTCUT_TARGETS = 2 ^ 3 ∧ FLAG_HAS_BIGRAMS = 2 ^ 2 ∧
    FLAG_IS_SHORTCUT_ONLY = 2 ^ 1 ∧
    [FLAG_HAS_MULTIPLE_CHARS, FLAG_IS_TERMINAL, FLAG_HAS_SHORTCUT_TARGETS, FLAG_HAS_BIGRAMS,
      FLAG_IS_SHORTCUT_ONLY, MASK_GROUP_ADDRESS_TYPE].Pairwise (fun x y => x &&& y = 0) ∧
    (∀ f ∈ [FLAG_HAS_MULTIPLE_CHARS, FLAG_IS_TERMINAL, FLAG_HAS_SHORTCUT_TARGETS,
        FLAG_HAS_BIGRAMS, FLAG_IS_SHORTCUT_ONLY],
      (b ||| f) &&& f = f ∧ (b &&& (0xFF ^^^ f)) &&& f = 0 ∧
      ∀ g ∈ [FLAG_HAS_MULTIPLE_CHARS, FLAG_IS_TERMINAL, FLAG_HAS_SHORTCUT_TARGETS,
          FLAG_HAS_BIGRAMS, FLAG_IS_SHORTCUT_ONLY, MASK_GROUP_ADDRESS_TYPE],
        g ≠ f → (b ||| f) &&& g = b &&& g ∧ (b &&& (0xFF ^^^ f)) &&& g = b &&& g) := by
  refine ⟨rfl, rfl, rfl, rfl, rfl, by decide, ?_⟩
  revert b
  set_option maxRecDepth 100000 in decide!

/-- C2 at the byte `0x55`: setting the terminal flag leaves the bigram flag and the
address type as they were. -/
theorem group_flags_independent_witness :
    (0x55 : Nat) < 256 ∧
    (0x55 ||| FLAG_IS_TERMINAL) &&& FLAG_HAS_BIGRAMS = 0x55 &&& FLAG_HAS_BIGRAMS ∧
    (0x55 &&& (0xFF ^^^ FLAG_IS_TERMINAL)) &&& MASK_GROUP_ADDRESS_TYPE =
      0x55 &&& MASK_GROUP_ADDRESS_TYPE :=
  ⟨by decide,
   ((group_flags_independent 0x55 (by decide)).2.2.2.2.2.2 FLAG_IS_TERMINAL (by decide)).2.2
      FLAG_HAS_BIGRAMS (by decide) (by decide) |>.1,
   ((group_flags_independent 0x55 (by decide)).2.2.2.2.2.2 FLAG_IS_TERMINAL (by decide)).2.2
      MASK_GROUP_ADDRESS_TYPE (by decide) (by decide) |>.2⟩

/-- C10: the group constants cover every bit of the byte but bit 0 (their OR is
`0xFE`), so flipping bit 0 of any byte `b` changes neither the address type nor any
of the five group flags read from it; the attribute masks, by contrast, cover all
eight bits. -/
theorem group_flags_ignore_bit_zero (b : Nat) (hb : b < 256) :
    MASK_GROUP_ADDRESS_TYPE ||| FLAG_HAS_MULTIPLE_CHARS ||| FLAG_IS_TERMINAL |||
      FLAG_HAS_SHORTCUT_TARGETS ||| FLAG_HAS_BIGRAMS ||| FLAG_IS_SHORTCUT_ONLY = 0xFE ∧
    (∀ m ∈ [MASK_GROUP_ADDRESS_TYPE, FLAG_HAS_MULTIPLE_CHARS, FLAG_IS_TERMINAL,
        FLAG_HAS_SHORTCUT_TARGETS, FLAG_HAS_BIGRAMS, FLAG_IS_SHORTCUT_ONLY],
      m &&& 0x01 = 0 ∧ (b ^^^ 0x01) &&& m = b &&& m) ∧
    FLAG_ATTRIBUTE_HAS_NEXT ||| FLAG_ATTRIBUTE_OFFSET_NEGATIVE ||| MASK_ATTRIBUTE_ADDRESS_TYPE |||
      MASK_ATTRIBUTE_FREQUENCY = 0xFF := by
  refine ⟨by decide, ?_, by decide⟩
  revert b
  set_option maxRecDepth 100000 in decide!

/-- C10 at the byte `0x10`: `0x10` and `0x11` read the same terminal flag. -/
theorem group_flags_ignore_bit_zero_witness :
    (0x10 : Nat) < 256 ∧ (0x10 ^^^ 0x01) &&& FLAG_IS_TERMINAL = 0x10 &&& FLAG_IS_TERMINAL :=
  ⟨by decide,
   ((group_flags_ignore_bit_zero 0x10 (by decide)).2.1 FLAG_IS_TERMINAL (by decide)).2⟩

/-! ## Claims on the attribute flags byte -/

/-- C3: in the attribute flags byte has-next is bit 7, offset-negative bit 6, the
address-type mask bits 5-4 and the frequency mask bits 3-0; the four masks are
pairwise disjoint and their OR is `0xFF`; every byte `b` is the OR of its four masked
parts; the frequency `b AND MASK_ATTRIBUTE_FREQUENCY` is at most 15 and every value
0..15 is the frequency of some byte. -/
theorem attribute_flags_partition (b : Nat) (hb : b < 256) :
    FLAG_ATTRIBUTE_HAS_NEXT = 2 ^ 7 ∧ FLAG_ATTRIBUTE_OFFSET_NEGATIVE = 2 ^ 6 ∧
    MASK_ATTRIBUTE_ADDRESS_TYPE = 2 ^ 5 + 2 ^ 4 ∧
    MASK_ATTRIBUTE_FREQUENCY = 2 ^ 3 + 2 ^ 2 + 2 ^ 1 + 2 ^ 0 ∧
    [FLAG_ATTRIBUTE_HAS_NEXT, FLAG_ATTRIBUTE_OFFSET_NEGATIVE, MASK_ATTRIBUTE_ADDRESS_TYPE,
      MASK_ATTRIBUTE_FREQUENCY].Pairwise (fun x y => x &&& y = 0) ∧
    FLAG_ATTRIBUTE_HAS_NEXT ||| FLAG_ATTRIBUTE_OFFSET_NEGATIVE ||| MASK_ATTRIBUTE_ADDRESS_TYPE |||
      MASK_ATTRIBUTE_FREQUENCY = 0xFF ∧
    b = (b &&& FLAG_ATTRIBUTE_HAS_NEXT) ||| (b &&& FLAG_ATTRIBUTE_OFFSET_NEGATIVE) |||
      (b &&& MASK_ATTRIBUTE_ADDRESS_TYPE) ||| (b &&& MASK_ATTRIBUTE_FREQUENCY) ∧
    b &&& MASK_ATTRIBUTE_FREQUENCY ≤ 15 ∧
    b &&& MASK_ATTRIBUTE_FREQUENCY = b % 16 ∧
    (∀ v, v ≤ 15 → ∃ a, a < 256 ∧ a &&& MASK_ATTRIBUTE_FREQUENCY = v) := by
  refine ⟨rfl, rfl, rfl, rfl, by decide, by decide, ?_, ?_, ?_, ?_⟩
  · revert b
    set_option maxRecDepth 100000 in decide!
  · revert b
    set_option maxRecDepth 100000 in decide!
  · revert b
    set_option maxRecDepth 100000 in decide!
  · intro v hv
    refine ⟨v, by omega, ?_⟩
    revert v
    decide

/-- C3 at the byte `0xB7`: has-next set, positive offset, three-byte address,
frequency 7. -/
theorem attribute_flags_partition_witness :
    (0xB7 : Nat) < 256 ∧ 0xB7 &&& MASK_ATTRIBUTE_FREQUENCY = 0xB7 % 16 ∧
    0xB7 &&& MASK_ATTRIBUTE_FREQUENCY ≤ 15 :=
  ⟨by decide, (attribute_flags_partition 0xB7 (by decide)).2.2.2.2.2.2.2.2.1,
   (attribute_flags_partition 0xB7 (by decide)).2.2.2.2.2.2.2.1⟩

/-- C4: for every attribute flags byte `b`, `b AND MASK_ATTRIBUTE_ADDRESS_TYPE` is the
ONEBYTE, TWOBYTES, THREEBYTES constant exactly when bits 5-4 of `b` (that is
`b / 16 % 4`) are 1, 2, 3, and the width is then 1, 2, 3 bytes; the three constants are
pairwise distinct and non-zero; the masked value matches none of them exactly when it
is 0, that is when bits 5-4 are 00, the reserved code. -/
theorem attribute_address_type_of_bits (b : Nat) (hb : b < 256) :
    (b &&& MASK_ATTRIBUTE_ADDRESS_TYPE = FLAG_ATTRIBUTE_ADDRESS_TYPE_ONEBYTE ↔
      b / 16 % 4 = 1) ∧
    (b &&& MASK_ATTRIBUTE_ADDRESS_TYPE = FLAG_ATTRIBUTE_ADDRESS_TYPE_TWOBYTES ↔
      b / 16 % 4 = 2) ∧
    (b &&& MASK_ATTRIBUTE_ADDRESS_TYPE = FLAG_ATTRIBUTE_ADDRESS_TYPE_THREEBYTES ↔
      b / 16 % 4 = 3) ∧
    (b &&& MASK_ATTRIBUTE_ADDRESS_TYPE = FLAG_ATTRIBUTE_ADDRESS_TYPE_ONEBYTE →
      attributeAddressWidth b = 1) ∧
    (b &&& MASK_ATTRIBUTE_ADDRESS_TYPE = FLAG_ATTRIBUTE_ADDRESS_TYPE_TWOBYTES →
      attributeAddressWidth b = 2) ∧
    (b &&& MASK_ATTRIBUTE_ADDRESS_TYPE = FLAG_ATTRIBUTE_ADDRESS_TYPE_THREEBYTES →
      attributeAddressWidth b = 3) ∧
    [FLAG_ATTRIBUTE_ADDRESS_TYPE_ONEBYTE, FLAG_ATTRIBUTE_ADDRESS_TYPE_TWOBYTES,
      FLAG_ATTRIBUTE_ADDRESS_TYPE_THREEBYTES].Nodup ∧
    (∀ c ∈ [FLAG_ATTRIBUTE_ADDRESS_TYPE_ONEBYTE, FLAG_ATTRIBUTE_ADDRESS_TYPE_TWOBYTES,
      FLAG_ATTRIBUTE_ADDRESS_TYPE_THREEBYTES], c ≠ 0) ∧
    (b &&& MASK_ATTRIBUTE_ADDRESS_TYPE ∉
        [FLAG_ATTRIBUTE_ADDRESS_TYPE_ONEBYTE, FLAG_ATTRIBUTE_ADDRESS_TYPE_TWOBYTES,
          FLAG_ATTRIBUTE_ADDRESS_TYPE_THREEBYTES] ↔
      b &&& MASK_ATTRIBUTE_ADDRESS_TYPE = 0) ∧
    (b &&& MASK_ATTRIBUTE_ADDRESS_TYPE = 0 ↔ b / 16 % 4 = 0) := by
  have hm := and_mask_attribute_eq b hb
  have hw := attributeAddressWidth_eq_div b hb
  have hq : b / 16 % 4 < 4 := Nat.mod_lt _ (by decide)
  rw [hm, hw]
  simp only [FLAG_ATTRIBUTE_ADDRESS_TYPE_ONEBYTE, FLAG_ATTRIBUTE_ADDRESS_TYPE_TWOBYTES,
    FLAG_ATTRIBUTE_ADDRESS_TYPE_THREEBYTES, List.mem_cons, List.mem_singleton,
    List.not_mem_nil, or_false]
  refine ⟨by omega, by omega, by omega, by omega, by omega, by omega, by decide, ?_, by omega,
    by omega⟩
  intro c hc
  omega

/-- C4 at the byte `0xA5` (bits 5-4 = 10): the two-byte attribute address type. -/
theorem attribute_address_type_of_bits_witness :
    (0xA5 : Nat) < 256 ∧
    0xA5 &&& MASK_ATTRIBUTE_ADDRESS_TYPE = FLAG_ATTRIBUTE_ADDRESS_TYPE_TWOBYTES :=
  ⟨by decide, (attribute_address_type_of_bits 0xA5 (by decide)).2.1.mpr (by decide)⟩

/-- C9: each attribute address-type constant, and the attribute mask, is the group
one shifted right by 2; for every byte the children-address width is
`(b AND MASK_GROUP_ADDRESS_TYPE) >> 6` and the attribute address width is
`(b AND MASK_ATTRIBUTE_ADDRESS_TYPE) >> 4`, the masked byte being the ONEBYTE,
TWOBYTES, THREEBYTES constant exactly when that formula gives 1, 2, 3; and the named
constants themselves map to 1, 2, 3 under the formulas. -/
theorem address_width_is_shifted_type (b : Nat) (hb : b < 256) :
    FLAG_ATTRIBUTE_ADDRESS_TYPE_ONEBYTE = FLAG_GROUP_ADDRESS_TYPE_ONEBYTE >>> 2 ∧
    FLAG_ATTRIBUTE_ADDRESS_TYPE_TWOBYTES = FLAG_GROUP_ADDRESS_TYPE_TWOBYTES >>> 2 ∧
    FLAG_ATTRIBUTE_ADDRESS_TYPE_THREEBYTES = FLAG_GROUP_ADDRESS_TYPE_THREEBYTES >>> 2 ∧
    MASK_ATTRIBUTE_ADDRESS_TYPE = MASK_GROUP_ADDRESS_TYPE >>> 2 ∧
    groupAddressWidth b = (b &&& MASK_GROUP_ADDRESS_TYPE) >>> 6 ∧
    attributeAddressWidth b = (b &&& MASK_ATTRIBUTE_ADDRESS_TYPE) >>> 4 ∧
    (b &&& MASK_GROUP_ADDRESS_TYPE = FLAG_GROUP_ADDRESS_TYPE_NOADDRESS ↔
      (b &&& MASK_GROUP_ADDRESS_TYPE) >>> 6 = 0) ∧
    (b &&& MASK_GROUP_ADDRESS_TYPE = FLAG_GROUP_ADDRESS_TYPE_ONEBYTE ↔
      (b &&& MASK_GROUP_ADDRESS_TYPE) >>> 6 = 1) ∧
    (b &&& MASK_GROUP_ADDRESS_TYPE = FLAG_GROUP_ADDRESS_TYPE_TWOBYTES ↔
      (b &&& MASK_GROUP_ADDRESS_TYPE) >>> 6 = 2) ∧
    (b &&& MASK_GROUP_ADDRESS_TYPE = FLAG_GROUP_ADDRESS_TYPE_THREEBYTES ↔
      (b &&& MASK_GROUP_ADDRESS_TYPE) >>> 6 = 3) ∧
    (b &&& MASK_ATTRIBUTE_ADDRESS_TYPE = FLAG_ATTRIBUTE_ADDRESS_TYPE_ONEBYTE ↔
      (b &&& MASK_ATTRIBUTE_ADDRESS_TYPE) >>> 4 = 1) ∧
    (b &&& MASK_ATTRIBUTE_ADDRESS_TYPE = FLAG_ATTRIBUTE_ADDRESS_TYPE_TWOBYTES ↔
      (b &&& MASK_ATTRIBUTE_ADDRESS_TYPE) >>> 4 = 2) ∧
    (b &&& MASK_ATTRIBUTE_ADDRESS_TYPE = FLAG_ATTRIBUTE_ADDRESS_TYPE_THREEBYTES ↔
      (b &&& MASK_ATTRIBUTE_ADDRESS_TYPE) >>> 4 = 3) ∧
    [(FLAG_GROUP_ADDRESS_TYPE_ONEBYTE &&& MASK_GROUP_ADDRESS_TYPE) >>> 6,
      (FLAG_GROUP_ADDRESS_TYPE_TWOBYTES &&& MASK_GROUP_ADDRESS_TYPE) >>> 6,
      (FLAG_GROUP_ADDRESS_TYPE_THREEBYTES &&& MASK_GROUP_ADDRESS_TYPE) >>> 6] = [1, 2, 3] ∧
    [(FLAG_ATTRIBUTE_ADDRESS_TYPE_ONEBYTE &&& MASK_ATTRIBUTE_ADDRESS_TYPE) >>> 4,
      (FLAG_ATTRIBUTE_ADDRESS_TYPE_TWOBYTES &&& MASK_ATTRIBUTE_ADDRESS_TYPE) >>> 4,
      (FLAG_ATTRIBUTE_ADDRESS_TYPE_THREEBYTES &&& MASK_ATTRIBUTE_ADDRESS_TYPE) >>> 4] =
      [1, 2, 3] := by
  have hg := and_mask_group_eq b hb
  have ha := and_mask_attribute_eq b hb
  have hq : b / 16 % 4 < 4 := Nat.mod_lt _ (by decide)
  rw [groupAddressWidth_eq_div b hb, attributeAddressWidth_eq_div b hb, hg, ha]
  simp only [Nat.shiftRight_eq_div_pow, FLAG_GROUP_ADDRESS_TYPE_NOADDRESS,
    FLAG_GROUP_ADDRESS_TYPE_ONEBYTE, FLAG_GROUP_ADDRESS_TYPE_TWOBYTES,
    FLAG_GROUP_ADDRESS_TYPE_THREEBYTES, FLAG_ATTRIBUTE_ADDRESS_TYPE_ONEBYTE,
    FLAG_ATTRIBUTE_ADDRESS_TYPE_TWOBYTES, FLAG_ATTRIBUTE_ADDRESS_TYPE_THREEBYTES]
  refine ⟨by decide, by decide, by decide, by decide, by omega, by omega, by omega, by omega,
    by omega, by omega, by omega, by omega, by omega, by decide, by decide⟩

/-- C9 at the byte `0x9F`: group width 2 (bits 7-6 = 10), attribute width 1
(bits 5-4 = 01). -/
theorem address_width_is_shifted_type_witness :
    (0x9F : Nat) < 256 ∧ groupAddressWidth 0x9F = (0x9F &&& MASK_GROUP_ADDRESS_TYPE) >>> 6 ∧
    attributeAddressWidth 0x9F = (0x9F &&& MASK_ATTRIBUTE_ADDRESS_TYPE) >>> 4 :=
  ⟨by decide, (address_width_is_shifted_type 0x9F (by decide)).2.2.2.2.1,
   (address_width_is_shifted_type 0x9F (by decide)).2.2.2.2.2.1⟩

/-! ## Decode round-trip of the flags bytes -/

/-- C5: packing the fields of a group (any of the four address types, any choice of
the five booleans) into a flags byte with the header constants and reading the byte
back through the same masks returns exactly the chosen fields; and packing an
attribute entry (has-next, sign, address type of 1, 2 or 3 bytes, frequency 0..15)
into its flags byte and reading it back returns exactly the same four fields.  Both
packed values are bytes. -/
theorem flags_decode_encode_roundtrip (g : GroupFlags) (e : AttributeFlags)
    (hf : e.frequency ≤ 15) :
    decodeGroupFlags (encodeGroupFlags g) = g ∧ encodeGroupFlags g < 256 ∧
    decodeAttributeFlags (encodeAttributeFlags e) = some e ∧ encodeAttributeFlags e < 256 := by
  obtain ⟨t, a, b, c, d, s⟩ := g
  obtain ⟨n, o, u, f⟩ := e
  simp only at hf
  refine ⟨?_, ?_, ?_, ?_⟩
  · cases t <;> cases a <;> cases b <;> cases c <;> cases d <;> cases s <;> rfl
  · cases t <;> cases a <;> cases b <;> cases c <;> cases d <;> cases s <;> decide
  · interval_cases f <;> cases n <;> cases o <;> cases u <;> rfl
  · interval_cases f <;> cases n <;> cases o <;> cases u <;> decide

/-- C5 at a terminal two-byte group with bigrams (flags byte `0x94`) and at a last,
negative-offset, three-byte attribute of frequency 9 (flags byte `0x79`). -/
theorem flags_decode_encode_roundtrip_witness :
    (9 : Nat) ≤ 15 ∧
    encodeGroupFlags (GroupFlags.mk .twoBytes false true false true false) = 0x94 ∧
    decodeGroupFlags 0x94 = GroupFlags.mk .twoBytes false true false true false ∧
    encodeAttributeFlags (AttributeFlags.mk false true .threeBytes 9) = 0x79 ∧
    decodeAttributeFlags 0x79 = some (AttributeFlags.mk false true .threeBytes 9) :=
  ⟨by decide, by decide,
   (flags_decode_encode_roundtrip (GroupFlags.mk .twoBytes false true false true false)
      (AttributeFlags.mk false true .threeBytes 9) (by decide)).1,
   by decide,
   (flags_decode_encode_roundtrip (GroupFlags.mk .twoBytes false true false true false)
      (AttributeFlags.mk false true .threeBytes 9) (by decide)).2.2.1⟩

/-! ## Error tolerances and the `flags` argument -/

/-- C6: the single-word error budget is 2 and the per-half budget of a two-word split
is 1; the per-half budget is strictly smaller, and the two halves together do not
exceed the single-word budget. -/
theorem error_budgets :
    DEFAULT_MAX_ERRORS = 2 ∧ MAX_ERRORS_FOR_TWO_WORDS = 1 ∧
    MAX_ERRORS_FOR_TWO_WORDS < DEFAULT_MAX_ERRORS ∧
    2 * MAX_ERRORS_FOR_TWO_WORDS ≤ DEFAULT_MAX_ERRORS := by
  decide

theorem or_two_and_one (f : Nat) : (f ||| 2) &&& 1 = f &&& 1 := by
  apply Nat.eq_of_testBit_eq
  intro i
  simp only [Nat.testBit_and, Nat.testBit_or]
  cases i with
  | zero => simp
  | succ n => simp [Nat.testBit_succ]

theorem xor_two_and_one (f : Nat) : (f ^^^ 2) &&& 1 = f &&& 1 := by
  apply Nat.eq_of_testBit_eq
  intro i
  simp only [Nat.testBit_and, Nat.testBit_xor]
  cases i with
  | zero => simp
  | succ n => simp [Nat.testBit_succ]

theorem or_one_and_two (f : Nat) : (f ||| 1) &&& 2 = f &&& 2 := by
  apply Nat.eq_of_testBit_eq
  intro i
  simp only [Nat.testBit_and, Nat.testBit_or]
  cases i with
  | zero => simp
  | succ n => cases n <;> simp [Nat.testBit_succ]

theorem xor_one_and_two (f : Nat) : (f ^^^ 1) &&& 2 = f &&& 2 := by
  apply Nat.eq_of_testBit_eq
  intro i
  simp only [Nat.testBit_and, Nat.testBit_xor]
  cases i with
  | zero => simp
  | succ n => cases n <;> simp [Nat.testBit_succ]

/-- C7: `REQUIRES_GERMAN_UMLAUT_PROCESSING` is bit 0 and `USE_FULL_EDIT_DISTANCE` is
bit 1 of the `flags` argument; they are disjoint; for every value `f` of `flags`,
what `f AND` one constant reads is the same when the other bit is set (`f | other`)
or flipped (`f ^ other`); and each of the four on/off combinations of the two
behaviours is read from some `f`. -/
theorem suggestion_flags_independent (f : Nat) :
    REQUIRES_GERMAN_UMLAUT_PROCESSING = 2 ^ 0 ∧ USE_FULL_EDIT_DISTANCE = 2 ^ 1 ∧
    REQUIRES_GERMAN_UMLAUT_PROCESSING &&& USE_FULL_EDIT_DISTANCE = 0 ∧
    (f ||| USE_FULL_EDIT_DISTANCE) &&& REQUIRES_GERMAN_UMLAUT_PROCESSING =
      f &&& REQUIRES_GERMAN_UMLAUT_PROCESSING ∧
    (f ^^^ USE_FULL_EDIT_DISTANCE) &&& REQUIRES_GERMAN_UMLAUT_PROCESSING =
      f &&& REQUIRES_GERMAN_UMLAUT_PROCESSING ∧
    (f ||| REQUIRES_GERMAN_UMLAUT_PROCESSING) &&& USE_FULL_EDIT_DISTANCE =
      f &&& USE_FULL_EDIT_DISTANCE ∧
    (f ^^^ REQUIRES_GERMAN_UMLAUT_PROCESSING) &&& USE_FULL_EDIT_DISTANCE =
      f &&& USE_FULL_EDIT_DISTANCE ∧
    (∀ umlaut fullEdit : Bool, ∃ g : Nat,
      (g &&& REQUIRES_GERMAN_UMLAUT_PROCESSING ≠ 0 ↔ umlaut = true) ∧
      (g &&& USE_FULL_EDIT_DISTANCE ≠ 0 ↔ fullEdit = true)) := by
  refine ⟨rfl, rfl, by decide, or_two_and_one f, xor_two_and_one f, or_one_and_two f,
    xor_one_and_two f, ?_⟩
  intro umlaut fullEdit
  cases umlaut <;> cases fullEdit
  · exact ⟨0, by decide⟩
  · exact ⟨2, by decide⟩
  · exact ⟨1, by decide⟩
  · exact ⟨3, by decide⟩

/-! ## Sorted output of `getSuggestions` -/

/-- With room for two words, four pushes (scores 3, 7, 9, 5; the 7 a two-word
candidate) leave the two best, best first. -/
theorem getSuggestions_keeps_best_two :
    getSuggestions 2
      (fun _ _ => [(Bucket.singleWord, Candidate.mk [99, 97, 116] 3),
        (Bucket.twoWords, Candidate.mk [97, 32, 98] 7),
        (Bucket.singleWord, Candidate.mk [99, 97, 114] 9),
        (Bucket.singleWord, Candidate.mk [99, 97, 112] 5)])
      [] (SuggestionRequest.mk [] [] [99, 97, 116] 3 0) =
    Suggestions.mk 2 [[99, 97, 114], [97, 32, 98]] [9, 7] := by
  rfl

theorem mem_insertByScore (c x : Candidate) (l : List Candidate) :
    x ∈ insertByScore c l → x = c ∨ x ∈ l := by
  induction l with
  | nil => intro h; simpa [insertByScore] using h
  | cons d ds ih =>
    intro h
    unfold insertByScore at h
    split at h
    · simpa using h
    · rcases List.mem_cons.mp h with h | h
      · exact Or.inr (by simp [h])
      · rcases ih h with h | h
        · exact Or.inl h
        · exact Or.inr (List.mem_cons_of_mem _ h)

theorem sortedByScore_insertByScore (c : Candidate) (l : List Candidate)
    (h : SortedByScore l) : SortedByScore (insertByScore c l) := by
  induction l with
  | nil => simp [insertByScore, SortedByScore]
  | cons d ds ih =>
    unfold SortedByScore at h ih ⊢
    rw [List.pairwise_cons] at h
    unfold insertByScore
    split
    · rename_i hlt
      refine List.pairwise_cons.mpr ⟨?_, List.pairwise_cons.mpr h⟩
      intro x hx
      rcases List.mem_cons.mp hx with hx | hx
      · subst hx; omega
      · have := h.1 x hx; omega
    · rename_i hge
      refine List.pairwise_cons.mpr ⟨?_, ih h.2⟩
      intro x hx
      rcases mem_insertByScore c x ds hx with hx | hx
      · subst hx; omega
      · exact h.1 x hx

theorem sortedByScore_take (n : Nat) (l : List Candidate) (h : SortedByScore l) :
    SortedByScore (l.take n) :=
  List.Pairwise.sublist (List.take_sublist n l) h

theorem sortedByScore_push (k : Nat) (q : Collector) (b : Bucket) (c : Candidate)
    (h : SortedByScore q.singleWord ∧ SortedByScore q.twoWords) :
    SortedByScore (q.push k b c).singleWord ∧ SortedByScore (q.push k b c).twoWords := by
  cases b
  · exact ⟨sortedByScore_take _ _ (sortedByScore_insertByScore _ _ h.1), h.2⟩
  · exact ⟨h.1, sortedByScore_take _ _ (sortedByScore_insertByScore _ _ h.2)⟩

theorem sortedByScore_foldl_push (k : Nat) (ps : List (Bucket × Candidate)) (q : Collector)
    (h : SortedByScore q.singleWord ∧ SortedByScore q.twoWords) :
    SortedByScore (ps.foldl (fun (q : Collector) (p : Bucket × Candidate) => q.push k p.1 p.2) q).singleWord ∧
    SortedByScore (ps.foldl (fun (q : Collector) (p : Bucket × Candidate) => q.push k p.1 p.2) q).twoWords := by
  induction ps generalizing q with
  | nil => exact h
  | cons p ps ih => exact ih _ (sortedByScore_push k q p.1 p.2 h)

theorem sortedByScore_drain (q : Collector) (h : SortedByScore q.singleWord) :
    SortedByScore q.drain := by
  unfold Collector.drain
  induction q.twoWords with
  | nil => exact h
  | cons c cs ih => exact sortedByScore_insertByScore c _ ih

/-- C8: for any trie buffer, any input and any search over them, the frequencies
`getSuggestions` writes are in non-increasing order (for indices `i < j` below the
returned count, `frequencies[i] >= frequencies[j]`), the returned count is at most
the configured maximum number of words, and it is the number of words and of
frequencies written. -/
theorem getSuggestions_sorted_and_bounded (maxWords : Nat)
    (search : List Nat → SuggestionRequest → List (Bucket × Candidate))
    (dictRoot : List Nat) (request : SuggestionRequest) :
    (getSuggestions maxWords search dictRoot request).count ≤ maxWords ∧
    (getSuggestions maxWords search dictRoot request).frequencies.length =
      (getSuggestions maxWords search dictRoot request).count ∧
    (getSuggestions maxWords search dictRoot request).outWords.length =
      (getSuggestions maxWords search dictRoot request).count ∧
    (getSuggestions maxWords search dictRoot request).frequencies.Pairwise (fun a b => b ≤ a) ∧
    ∀ i j, i < j → j < (getSuggestions maxWords search dictRoot request).count →
      (getSuggestions maxWords search dictRoot request).frequencies.getD j 0 ≤
        (getSuggestions maxWords search dictRoot request).frequencies.getD i 0 := by
  have hs : SortedByScore (((search dictRoot request).foldl
      (fun (q : Collector) (p : Bucket × Candidate) => q.push maxWords p.1 p.2)
      (Collector.mk [] [])).drain.take maxWords) := by
    apply sortedByScore_take
    apply sortedByScore_drain
    exact (sortedByScore_foldl_push maxWords _ (Collector.mk [] [])
      ⟨List.Pairwise.nil, List.Pairwise.nil⟩).1
  have hp : (getSuggestions maxWords search dictRoot request).frequencies.Pairwise
      (fun a b => b ≤ a) := by
    simp only [getSuggestions]
    exact List.pairwise_map.mpr hs
  refine ⟨?_, ?_, ?_, hp, ?_⟩
  · simp only [getSuggestions, List.length_take]
    omega
  · simp [getSuggestions]
  · simp [getSuggestions]
  · intro i j hij hj
    have hlen : (getSuggestions maxWords search dictRoot request).frequencies.length =
        (getSuggestions maxWords search dictRoot request).count := by
      simp [getSuggestions]
    have hj2 : j < (getSuggestions maxWords search dictRoot request).frequencies.length := by
      omega
    have hi2 : i < (getSuggestions maxWords search dictRoot request).frequencies.length := by
      omega
    rw [List.getD_eq_getElem _ _ hj2, List.getD_eq_getElem _ _ hi2]
    exact List.pairwise_iff_getElem.mp hp i j hi2 hj2 hij

end UnigramDictionary
